import Mathlib

/-! Verification of the co2meter device-protocol core.

This file gives a shallow embedding of the protocol layer of the co2meter
package (the module `co2meter/co2meter.py` and the monitoring loop of
`co2meter/server.py`) and proves or refutes the claims of the specification
about it.  Python integers are modelled by `Nat` (with explicit masking where
the code masks), Python float arithmetic by exact rationals, Python `None`
results by `Option`, and Python exceptions by `Except`. -/

namespace CO2Meter

/-- Embedding of `list_to_longint`: enumerate the reversed list and sum each
value shifted left by 8 bits per position. -/
def list_to_longint (x : List Nat) : Nat :=
  (x.reverse.enum.map (fun p => p.2 <<< (p.1 * 8))).sum

/-- Embedding of `longint_to_list`: extract the 8 bytes of a 64-bit integer,
most significant first. -/
def longint_to_list (x : Nat) : List Nat :=
  [56, 48, 40, 32, 24, 16, 8, 0].map (fun i => (x >>> i) &&& 0xFF)

/-- Embedding of `convert_temperature`: convert from units of 1/16th Kelvin
to Celsius.  Python float arithmetic is modelled by exact rationals; the two
literals 0.0625 and 273.15 of the source appear unchanged. -/
def convert_temperature (val : ℚ) : ℚ := val * 0.0625 - 273.15

/-- The bytes of the constant `_CO2MON_MAGIC_WORD = b'Htemp99e'`. -/
def CO2MON_MAGIC_WORD : List Nat := [72, 116, 101, 109, 112, 57, 57, 101]

/-- The constant `_CO2MON_MAGIC_TABLE = (0, 0, 0, 0, 0, 0, 0, 0)`. -/
def CO2MON_MAGIC_TABLE : List Nat := [0, 0, 0, 0, 0, 0, 0, 0]

/-- The `_magic_word` attribute computed in `CO2monitor.__init__`: each byte
`w` of the magic word replaced by `((w << 4) & 0xFF) | (w >> 4)`. -/
def magic_word : List Nat :=
  CO2MON_MAGIC_WORD.map (fun w => ((w <<< 4) &&& 0xFF) ||| (w >>> 4))

/-- The `_magic_table_int` attribute computed in `CO2monitor.__init__`. -/
def magic_table_int : Nat := list_to_longint CO2MON_MAGIC_TABLE

/-- Python exception outcomes of the embedded code: `OSError` raised by the
HID library (the DeviceIOError of the specification) and `IndexError` raised
by out-of-range list indexing. -/
inductive PyError where
  | osError
  | indexError
deriving DecidableEq

/-- Embedding of `CO2monitor._decrypt`.  The list comprehension
`[message[i] for i in [2, 4, 0, 7, 1, 6, 5, 3]]` raises `IndexError` when the
message has fewer than 8 bytes; this is the `Except.error` case.  The final
`(r - mw) & 0xFF` is two-complement masking of a possibly negative Python
integer, i.e. the nonnegative residue modulo 256. -/
def decrypt (bypass_decrypt : Bool) (message : List Nat) : Except PyError (List Nat) :=
  if bypass_decrypt then .ok message
  else if 8 ≤ message.length then
    let msg := list_to_longint ([2, 4, 0, 7, 1, 6, 5, 3].map (fun i => message.getD i 0))
    let res := msg ^^^ magic_table_int
    let rotated := (res >>> 3) ||| ((res <<< 61) &&& 0xFFFFFFFFFFFFFFFF)
    let bytes := longint_to_list rotated
    .ok ((bytes.zip magic_word).map (fun p => (((p.1 : Int) - (p.2 : Int)) % 256).toNat))
  else .error .indexError

/-- Worded by the spec: read a list of bytes as a big-endian unsigned
integer. -/
def be_value (l : List Nat) : Nat := l.foldl (fun acc b => acc * 256 + b) 0

/-- Worded by the spec: split a 64-bit integer into 8 bytes, most significant
first. -/
def be_bytes (x : Nat) : List Nat :=
  [x / 2 ^ 56 % 256, x / 2 ^ 48 % 256, x / 2 ^ 40 % 256, x / 2 ^ 32 % 256,
   x / 2 ^ 24 % 256, x / 2 ^ 16 % 256, x / 2 ^ 8 % 256, x % 256]

/-- Worded by the spec: rotate a 64-bit integer right by 3 bits; the three
bits rotated out of the low end reenter at the high end. -/
def rotate_right3 (x : Nat) : Nat := x / 8 + x % 8 * 2 ^ 61

/-- Worded by the spec: swap the high and the low nibble of a byte. -/
def nibble_swap (w : Nat) : Nat := w % 16 * 16 + w / 16

/-- The five-step decode pipeline exactly as the specification words it:
reorder the bytes by the permutation [2,4,0,7,1,6,5,3] and read them
big-endian, XOR with the magic-table integer, rotate right by 3 bits, split
back into 8 bytes most significant first, and subtract per byte index the
nibble-swapped magic-word byte, modulo 256. -/
def decrypt_pipeline (message : List Nat) : List Nat :=
  let m := be_value ([2, 4, 0, 7, 1, 6, 5, 3].map (fun i => message.getD i 0))
  let x := m ^^^ be_value CO2MON_MAGIC_TABLE
  let r := rotate_right3 x
  (be_bytes r).zip (CO2MON_MAGIC_WORD.map nibble_swap) |>.map
    (fun p => (((p.1 : Int) - (p.2 : Int)) % 256).toNat)

/-- The constant `_CODE_END_MESSAGE = 0x0D`. -/
def CODE_END_MESSAGE : Nat := 0x0D

/-- The constant `_CODE_CO2 = 0x50`. -/
def CODE_CO2 : Nat := 0x50

/-- The constant `_CODE_TEMPERATURE = 0x42`. -/
def CODE_TEMPERATURE : Nat := 0x42

/-- Embedding of the static method `CO2monitor.decode_message`: the pair of
the CO2 concentration in ppm and the temperature in Celsius, each absent
unless decoded from the message.  The `bad_msg` accumulation of the source is
the disjunction of its five comparisons, in source order. -/
def decode_message (msg : List Nat) : Option Nat × Option ℚ :=
  if msg.getD 5 0 ≠ 0 ∨ msg.getD 6 0 ≠ 0 ∨ msg.getD 7 0 ≠ 0 ∨
      msg.getD 4 0 ≠ CODE_END_MESSAGE ∨ ((msg.take 3).sum &&& 0xFF) ≠ msg.getD 3 0 then
    (none, none)
  else
    let value := (msg.getD 1 0 <<< 8) ||| msg.getD 2 0
    if msg.getD 0 0 = CODE_CO2 then (some value, none)
    else if msg.getD 0 0 = CODE_TEMPERATURE then (none, some (convert_temperature (value : ℚ)))
    else (none, none)

/-- State of the device session: the `_status` open-request counter of
`CO2monitor`, whether the OS-level HID handle is currently open, and counts
of the OS calls issued to the `hid` library object `_h` (`open_path`,
`close`, `send_feature_report`). -/
structure HidState where
  status : Nat
  handleOpen : Bool
  osOpenCalls : Nat
  osCloseCalls : Nat
  osFeatureReports : Nat
deriving DecidableEq

/-- The state after construction: counter 0, handle closed, no OS calls. -/
def initHid : HidState := ⟨0, false, 0, 0, 0⟩

/-- Embedding of `CO2monitor.hid_open`: when the counter is 0 the OS handle
is opened (and the magic table optionally sent); the counter is always
incremented. -/
def hid_open (send_magic_table : Bool) (s : HidState) : HidState :=
  let s' := if s.status = 0 then
      { s with handleOpen := true, osOpenCalls := s.osOpenCalls + 1,
               osFeatureReports := s.osFeatureReports + (if send_magic_table then 1 else 0) }
    else s
  { s' with status := s'.status + 1 }

/-- Embedding of `CO2monitor.hid_close`: with `force` the counter is reset
to 0, otherwise it is decremented when positive; afterwards, whenever the
counter is 0 the OS `close` call is issued (note: also when the counter was
already 0 on entry). -/
def hid_close (force : Bool) (s : HidState) : HidState :=
  let s' := if force then { s with status := 0 }
    else if 0 < s.status then { s with status := s.status - 1 } else s
  if s'.status = 0 then
    { s' with handleOpen := false, osCloseCalls := s'.osCloseCalls + 1 }
  else s'

/-- The accumulator update of `CO2monitor._read_co2_temp`: the statement
`if _co2 is not None: co2 = _co2` keeps the new value when present and the
old one otherwise. -/
def keepLast {α : Type} (new old : Option α) : Option α :=
  match new with
  | some v => some v
  | none => old

/-- Embedding of the loop of `CO2monitor._read_co2_temp`.  `frames i` is the
decrypted message returned by the i-th `hid_read` call, `ii` the number of
reads already performed, `fuel` the remaining iterations of
`range(max_requests)`, `co2` and `temp` the accumulators.  Returns the total
number of reads performed together with the final accumulators. -/
def read_loop (frames : Nat → List Nat) :
    Nat → Nat → Option Nat → Option ℚ → Nat × Option Nat × Option ℚ
  | ii, 0, co2, temp => (ii, co2, temp)
  | ii, fuel + 1, co2, temp =>
    let d := decode_message (frames ii)
    let co2' := keepLast d.1 co2
    let temp' := keepLast d.2 temp
    if co2'.isSome && temp'.isSome then (ii + 1, co2', temp')
    else read_loop frames (ii + 1) fuel co2' temp'

/-- Embedding of `CO2monitor._read_co2_temp`: run the loop with budget
`max_requests`, then capture the timestamp once, after the loop; `clock r`
models the value of `now()` at the moment when r reads have been
performed. -/
def read_co2_temp (clock : Nat → Nat) (frames : Nat → List Nat) (max_requests : Nat) :
    Nat × Option Nat × Option ℚ :=
  let r := read_loop frames 0 max_requests none none
  (clock r.1, r.2.1, r.2.2)

/-- Worded by the spec: the most recently seen value among the first n
outputs of g, absent when all are absent. -/
def lastSome {α : Type} (g : Nat → Option α) : Nat → Option α
  | 0 => none
  | n + 1 => keepLast (g n) (lastSome g n)

/-- The CO2 component decoded from the i-th frame. -/
def co2At (frames : Nat → List Nat) (i : Nat) : Option Nat := (decode_message (frames i)).1

/-- The temperature component decoded from the i-th frame. -/
def tempAt (frames : Nat → List Nat) (i : Nat) : Option ℚ := (decode_message (frames i)).2

/-- Worded by the spec: both reading kinds observed at least once within the
first n frames. -/
def bothSeen (frames : Nat → List Nat) (n : Nat) : Bool :=
  (lastSome (co2At frames) n).isSome && (lastSome (tempAt frames) n).isSome

/-- Embedding of `CO2monitor.hid_read`: `osRead` is the outcome of the OS
HID read `self._h.read(8)` (error = `OSError`, which propagates); the read
bytes are passed through `_decrypt`. -/
def hid_read (bypass_decrypt : Bool) (osRead : Except Unit (List Nat)) :
    Except PyError (List Nat) :=
  match osRead with
  | .error _ => .error .osError
  | .ok msg => decrypt bypass_decrypt msg

/-- A log line of the server monitoring loop: either the "monitor is not
connected" message or a successful reading. -/
inductive LogEntry (V : Type) where
  | notConnected
  | reading (v : V)

/-- State of the server monitoring loop of `co2meter/server.py`: the global
`mon` object (None when the monitor is not initialised), the log lines
emitted so far, and the contents of the CSV sink (`write_to_log`). -/
structure LoopState (M V : Type) where
  mon : Option M
  log : List (LogEntry V)
  sink : List V

/-- Embedding of `server.read_co2_data`: when `mon` is None, construction of
`CO2monitor` is attempted first (outcome `initR`; `OSError` gives result
None with `mon` still None); then `read_data_raw` is attempted (outcome
`readR`; `OSError` drops the monitor object and gives result None). -/
def read_co2_data {M V : Type} (initR : Except Unit M) (readR : M → Except Unit V)
    (mon : Option M) : Option V × Option M :=
  match mon with
  | none =>
    match initR with
    | .error _ => (none, none)
    | .ok m =>
      match readR m with
      | .error _ => (none, none)
      | .ok v => (some v, some m)
  | some m =>
    match readR m with
    | .error _ => (none, none)
    | .ok v => (some v, some m)

/-- Embedding of one iteration of the `while _monitoring` loop of
`server.monitoring_CO2`: call `read_co2_data`; on None log "monitor is not
connected", otherwise log the reading and append it to the sink; then sleep
until the next iteration. -/
def monitoring_step {M V : Type} (initR : Except Unit M) (readR : M → Except Unit V)
    (s : LoopState M V) : LoopState M V :=
  match read_co2_data initR readR s.mon with
  | (none, mon') => ⟨mon', s.log ++ [.notConnected], s.sink⟩
  | (some v, mon') => ⟨mon', s.log ++ [.reading v], s.sink ++ [v]⟩

/-- The monitoring loop run for n iterations (the loop keeps iterating until
a stop request is observed at an iteration boundary); `env i` supplies the
construction and read outcomes of the device for iteration i. -/
def monitoring_run {M V : Type} (env : Nat → Except Unit M × (M → Except Unit V))
    (s : LoopState M V) : Nat → LoopState M V
  | 0 => s
  | n + 1 => monitoring_step (env n).1 (env n).2 (monitoring_run env s n)

/-- State of the continuous-monitoring controls of `CO2monitor`: the
`_keep_monitoring` flag, the polling interval `_interval` (seconds), and the
number of monitoring threads spawned so far. -/
structure MonState where
  keep_monitoring : Bool
  interval : ℚ
  threads : Nat
deriving DecidableEq

/-- Embedding of `CO2monitor.start_monitoring`: the interval attribute is
assigned first; then, if monitoring is already running, the method returns
without spawning a thread, otherwise it sets the flag and spawns the
monitoring thread. -/
def start_monitoring (interval : ℚ) (s : MonState) : MonState :=
  let s' := { s with interval := interval }
  if s'.keep_monitoring then s'
  else { s' with keep_monitoring := true, threads := s'.threads + 1 }

theorem and_255_eq_mod (x : Nat) : x &&& 255 = x % 256 := by
  rw [show (255 : ℕ) = 2 ^ 8 - 1 by norm_num, Nat.and_pow_two_sub_one_eq_mod]

theorem shiftRight_and_255 (x i : Nat) : (x >>> i) &&& 255 = x / 2 ^ i % 256 := by
  rw [Nat.shiftRight_eq_div_pow, and_255_eq_mod]

theorem rotate_code_eq (x : Nat) (h : x < 2 ^ 64) :
    (x >>> 3) ||| ((x <<< 61) &&& 0xFFFFFFFFFFFFFFFF) = rotate_right3 x := by
  unfold rotate_right3
  rw [Nat.shiftRight_eq_div_pow, Nat.shiftLeft_eq]
  rw [show (0xFFFFFFFFFFFFFFFF : ℕ) = 2 ^ 64 - 1 by norm_num]
  rw [Nat.and_pow_two_sub_one_eq_mod]
  rw [show x * 2 ^ 61 % 2 ^ 64 = x % 8 * 2 ^ 61 by omega]
  have h3 : x / 8 < 2 ^ 61 := by omega
  rw [Nat.lor_comm, show x % 8 * 2 ^ 61 = 2 ^ 61 * (x % 8) by ring]
  rw [← Nat.mul_add_lt_is_or h3 (x % 8)]
  ring

theorem longint_to_list_eq_be_bytes (x : Nat) : longint_to_list x = be_bytes x := by
  simp only [longint_to_list, be_bytes, List.map_cons, List.map_nil, shiftRight_and_255]
  norm_num

theorem list_to_longint_eight (x0 x1 x2 x3 x4 x5 x6 x7 : Nat) :
    list_to_longint [x0, x1, x2, x3, x4, x5, x6, x7] =
      x0 * 2 ^ 56 + x1 * 2 ^ 48 + x2 * 2 ^ 40 + x3 * 2 ^ 32 + x4 * 2 ^ 24 +
        x5 * 2 ^ 16 + x6 * 2 ^ 8 + x7 := by
  simp only [list_to_longint, List.reverse_cons, List.reverse_nil, List.nil_append,
    List.cons_append, List.enum, List.enumFrom, List.map_cons, List.map_nil,
    List.sum_cons, List.sum_nil, Nat.shiftLeft_eq]
  ring

theorem be_value_eight (x0 x1 x2 x3 x4 x5 x6 x7 : Nat) :
    be_value [x0, x1, x2, x3, x4, x5, x6, x7] =
      x0 * 2 ^ 56 + x1 * 2 ^ 48 + x2 * 2 ^ 40 + x3 * 2 ^ 32 + x4 * 2 ^ 24 +
        x5 * 2 ^ 16 + x6 * 2 ^ 8 + x7 := by
  simp only [be_value, List.foldl_cons, List.foldl_nil]
  ring

theorem list_length_eight {α : Type} {l : List α} (h : l.length = 8) :
    ∃ a b c d e f g k, l = [a, b, c, d, e, f, g, k] := by
  rcases l with _ | ⟨a, _ | ⟨b, _ | ⟨c, _ | ⟨d, _ | ⟨e, _ | ⟨f, _ | ⟨g, _ | ⟨k, _ | ⟨m, t⟩⟩⟩⟩⟩⟩⟩⟩⟩ <;>
      simp only [List.length_cons, List.length_nil] at h <;>
    first
      | omega
      | exact ⟨a, b, c, d, e, f, g, k, rfl⟩

/-- C1: for every 8-byte raw frame, with bypass_decrypt false, decrypt
returns exactly the result of the five-step pipeline (reorder by the
permutation [2,4,0,7,1,6,5,3] and read big-endian, XOR with the magic-table
integer, rotate right by 3 bits, split into 8 bytes most significant first,
subtract the nibble-swapped bytes of "Htemp99e" modulo 256); with
bypass_decrypt true, decrypt returns the raw frame unchanged. -/
theorem C1_decrypt_pipeline (message : List Nat) (hlen : message.length = 8)
    (hbytes : ∀ b ∈ message, b < 256) :
    decrypt false message = .ok (decrypt_pipeline message) ∧
    decrypt true message = .ok message := by
  refine ⟨?_, rfl⟩
  obtain ⟨b0, b1, b2, b3, b4, b5, b6, b7, rfl⟩ := list_length_eight hlen
  have h0 : b0 < 256 := hbytes _ (by simp)
  have h1 : b1 < 256 := hbytes _ (by simp)
  have h2 : b2 < 256 := hbytes _ (by simp)
  have h3 : b3 < 256 := hbytes _ (by simp)
  have h4 : b4 < 256 := hbytes _ (by simp)
  have h5 : b5 < 256 := hbytes _ (by simp)
  have h6 : b6 < 256 := hbytes _ (by simp)
  have h7 : b7 < 256 := hbytes _ (by simp)
  have hperm : [2, 4, 0, 7, 1, 6, 5, 3].map
      (fun i => ([b0, b1, b2, b3, b4, b5, b6, b7] : List Nat).getD i 0) =
      [b2, b4, b0, b7, b1, b6, b5, b3] := rfl
  have htbl : magic_table_int = 0 := by decide
  have htbl2 : be_value CO2MON_MAGIC_TABLE = 0 := by decide
  have hmw : CO2MON_MAGIC_WORD.map nibble_swap = magic_word := by decide
  have hM : list_to_longint [b2, b4, b0, b7, b1, b6, b5, b3] =
      be_value [b2, b4, b0, b7, b1, b6, b5, b3] := by
    rw [list_to_longint_eight, be_value_eight]
  have hMlt : be_value [b2, b4, b0, b7, b1, b6, b5, b3] < 2 ^ 64 := by
    rw [be_value_eight]; omega
  have hlen8 : 8 ≤ ([b0, b1, b2, b3, b4, b5, b6, b7] : List Nat).length := by simp
  simp only [decrypt, decrypt_pipeline, hperm, htbl, htbl2, Nat.xor_zero, hmw,
    if_pos hlen8, Bool.false_eq_true, if_false]
  rw [hM, rotate_code_eq _ hMlt, longint_to_list_eq_be_bytes]

/-- C1 witness: the theorem instantiated at the concrete frame
[1, 2, 3, 4, 5, 6, 7, 8]. -/
theorem C1_decrypt_pipeline_witness :
    ([1, 2, 3, 4, 5, 6, 7, 8] : List Nat).length = 8 ∧
    (∀ b ∈ ([1, 2, 3, 4, 5, 6, 7, 8] : List Nat), b < 256) ∧
    (decrypt false [1, 2, 3, 4, 5, 6, 7, 8] = .ok (decrypt_pipeline [1, 2, 3, 4, 5, 6, 7, 8]) ∧
     decrypt true [1, 2, 3, 4, 5, 6, 7, 8] = .ok [1, 2, 3, 4, 5, 6, 7, 8]) :=
  ⟨by decide, by decide, C1_decrypt_pipeline [1, 2, 3, 4, 5, 6, 7, 8] (by decide) (by decide)⟩

/-- C10: decode_message never returns both a CO2 value and a temperature
value from the same record; at most one component of the pair is present. -/
theorem C10_at_most_one (msg : List Nat) :
    (decode_message msg).1 = none ∨ (decode_message msg).2 = none := by
  unfold decode_message
  split
  · exact Or.inl rfl
  · split
    · exact Or.inr rfl
    · split
      · exact Or.inl rfl
      · exact Or.inl rfl

/-- C2 counterexample: the record [0x99, 0, 0, 0x99, 0x0D, 0, 0, 0] satisfies
all three structural checks (bytes 5..7 zero, byte 4 = 0x0D, byte 3 the sum
of bytes 0..2 modulo 256), yet decode_message returns no value at all,
because byte 0 is neither 0x50 nor 0x42.  This refutes the claimed
"accepts if and only if the checks hold". -/
theorem C2_counterexample :
    decode_message [153, 0, 0, 153, 13, 0, 0, 0] = (none, none) ∧
    ([153, 0, 0, 153, 13, 0, 0, 0] : List Nat).length = 8 ∧
    ([153, 0, 0, 153, 13, 0, 0, 0] : List Nat).getD 5 0 = 0 ∧
    ([153, 0, 0, 153, 13, 0, 0, 0] : List Nat).getD 6 0 = 0 ∧
    ([153, 0, 0, 153, 13, 0, 0, 0] : List Nat).getD 7 0 = 0 ∧
    ([153, 0, 0, 153, 13, 0, 0, 0] : List Nat).getD 4 0 = 13 ∧
    (153 + 0 + 0) % 256 = ([153, 0, 0, 153, 13, 0, 0, 0] : List Nat).getD 3 0 := by
  refine ⟨?_, by decide, by decide, by decide, by decide, by decide, by decide⟩
  have : ¬(([153, 0, 0, 153, 13, 0, 0, 0] : List Nat).getD 5 0 ≠ 0 ∨
      ([153, 0, 0, 153, 13, 0, 0, 0] : List Nat).getD 6 0 ≠ 0 ∨
      ([153, 0, 0, 153, 13, 0, 0, 0] : List Nat).getD 7 0 ≠ 0 ∨
      ([153, 0, 0, 153, 13, 0, 0, 0] : List Nat).getD 4 0 ≠ CODE_END_MESSAGE ∨
      ((([153, 0, 0, 153, 13, 0, 0, 0] : List Nat).take 3).sum &&& 0xFF) ≠
        ([153, 0, 0, 153, 13, 0, 0, 0] : List Nat).getD 3 0) := by decide
  simp only [decode_message, if_neg this]
  norm_num [CODE_CO2, CODE_TEMPERATURE]

/-- C2 amended: for every 8-byte decoded record, decode_message returns a
value if and only if bytes 5, 6, 7 are zero, byte 4 equals 0x0D, byte 3
equals the sum of bytes 0..2 modulo 256, AND byte 0 is one of the two known
codes 0x50 (CO2) or 0x42 (temperature); records passing the structural
checks with any other byte 0 carry no value either. -/
theorem C2_accept_iff (msg : List Nat) (hlen : msg.length = 8) :
    ((decode_message msg).1 ≠ none ∨ (decode_message msg).2 ≠ none) ↔
      (msg.getD 5 0 = 0 ∧ msg.getD 6 0 = 0 ∧ msg.getD 7 0 = 0 ∧
        msg.getD 4 0 = CODE_END_MESSAGE ∧
        (msg.take 3).sum % 256 = msg.getD 3 0 ∧
        (msg.getD 0 0 = CODE_CO2 ∨ msg.getD 0 0 = CODE_TEMPERATURE)) := by
  unfold decode_message
  rw [and_255_eq_mod]
  by_cases hb : msg.getD 5 0 ≠ 0 ∨ msg.getD 6 0 ≠ 0 ∨ msg.getD 7 0 ≠ 0 ∨
      msg.getD 4 0 ≠ CODE_END_MESSAGE ∨ (msg.take 3).sum % 256 ≠ msg.getD 3 0
  · rw [if_pos hb]
    constructor
    · rintro (h | h) <;> exact absurd rfl h
    · rintro ⟨h5, h6, h7, h4, h3, -⟩
      tauto
  · rw [if_neg hb]
    push_neg at hb
    obtain ⟨h5, h6, h7, h4, h3⟩ := hb
    simp only []
    by_cases hc : msg.getD 0 0 = CODE_CO2
    · rw [if_pos hc]
      constructor
      · intro _
        exact ⟨h5, h6, h7, h4, h3, Or.inl hc⟩
      · intro _
        exact Or.inl (by simp)
    · rw [if_neg hc]
      by_cases ht : msg.getD 0 0 = CODE_TEMPERATURE
      · rw [if_pos ht]
        constructor
        · intro _
          exact ⟨h5, h6, h7, h4, h3, Or.inr ht⟩
        · intro _
          exact Or.inr (by simp)
      · rw [if_neg ht]
        constructor
        · rintro (h | h) <;> exact absurd rfl h
        · rintro ⟨-, -, -, -, -, h | h⟩
          · exact absurd h hc
          · exact absurd h ht

/-- C2 amended witness: the valid CO2 record [0x50, 3, 232, 59, 0x0D, 0, 0, 0]
is accepted and satisfies the right-hand side. -/
theorem C2_accept_iff_witness :
    ([80, 3, 232, 59, 13, 0, 0, 0] : List Nat).length = 8 ∧
    (((decode_message [80, 3, 232, 59, 13, 0, 0, 0]).1 ≠ none ∨
      (decode_message [80, 3, 232, 59, 13, 0, 0, 0]).2 ≠ none) ↔
      (([80, 3, 232, 59, 13, 0, 0, 0] : List Nat).getD 5 0 = 0 ∧
        ([80, 3, 232, 59, 13, 0, 0, 0] : List Nat).getD 6 0 = 0 ∧
        ([80, 3, 232, 59, 13, 0, 0, 0] : List Nat).getD 7 0 = 0 ∧
        ([80, 3, 232, 59, 13, 0, 0, 0] : List Nat).getD 4 0 = CODE_END_MESSAGE ∧
        (([80, 3, 232, 59, 13, 0, 0, 0] : List Nat).take 3).sum % 256 =
          ([80, 3, 232, 59, 13, 0, 0, 0] : List Nat).getD 3 0 ∧
        (([80, 3, 232, 59, 13, 0, 0, 0] : List Nat).getD 0 0 = CODE_CO2 ∨
          ([80, 3, 232, 59, 13, 0, 0, 0] : List Nat).getD 0 0 = CODE_TEMPERATURE))) :=
  ⟨by decide, C2_accept_iff [80, 3, 232, 59, 13, 0, 0, 0] (by decide)⟩

/-- C3 counterexample: the claim gives the example that raw value 4693
yields 19.9125 Celsius, but by its own formula 4693 * 0.0625 - 273.15 =
20.1625.  The valid temperature record [0x42, 0x12, 0x55, 0xA9, 0x0D, 0, 0, 0]
carries the raw value (0x12 << 8) | 0x55 = 4693 and decodes to 20.1625. -/
theorem C3_counterexample :
    decode_message [66, 18, 85, 169, 13, 0, 0, 0] = (none, some 20.1625) ∧
    ((18 <<< 8) ||| 85 : Nat) = 4693 ∧
    (20.1625 : ℚ) ≠ 19.9125 := by
  refine ⟨?_, by decide, by norm_num⟩
  have hgood : ¬(([66, 18, 85, 169, 13, 0, 0, 0] : List Nat).getD 5 0 ≠ 0 ∨
      ([66, 18, 85, 169, 13, 0, 0, 0] : List Nat).getD 6 0 ≠ 0 ∨
      ([66, 18, 85, 169, 13, 0, 0, 0] : List Nat).getD 7 0 ≠ 0 ∨
      ([66, 18, 85, 169, 13, 0, 0, 0] : List Nat).getD 4 0 ≠ CODE_END_MESSAGE ∨
      ((([66, 18, 85, 169, 13, 0, 0, 0] : List Nat).take 3).sum &&& 0xFF) ≠
        ([66, 18, 85, 169, 13, 0, 0, 0] : List Nat).getD 3 0) := by decide
  have hne : ¬(([66, 18, 85, 169, 13, 0, 0, 0] : List Nat).getD 0 0 = CODE_CO2) := by decide
  have hte : ([66, 18, 85, 169, 13, 0, 0, 0] : List Nat).getD 0 0 = CODE_TEMPERATURE := by decide
  simp only [decode_message, if_neg hgood, if_neg hne, if_pos hte]
  rw [show (([66, 18, 85, 169, 13, 0, 0, 0] : List Nat).getD 1 0 <<< 8 |||
      ([66, 18, 85, 169, 13, 0, 0, 0] : List Nat).getD 2 0 : Nat) = 4693 from by decide]
  norm_num [convert_temperature]

/-- C3 amended: for every valid 8-byte record, with value = (byte1 << 8) |
byte2, a byte 0 of 0x50 yields the CO2 concentration equal to value (ppm, no
conversion), a byte 0 of 0x42 yields the temperature value * 0.0625 - 273.15
Celsius (so raw value 4689 yields 19.9125, and 4693 yields 20.1625), and any
other byte 0 yields no value. -/
theorem C3_decode_values (msg : List Nat) (hlen : msg.length = 8)
    (h5 : msg.getD 5 0 = 0) (h6 : msg.getD 6 0 = 0) (h7 : msg.getD 7 0 = 0)
    (h4 : msg.getD 4 0 = CODE_END_MESSAGE)
    (h3 : (msg.take 3).sum % 256 = msg.getD 3 0) :
    (msg.getD 0 0 = CODE_CO2 →
      decode_message msg = (some ((msg.getD 1 0 <<< 8) ||| msg.getD 2 0), none)) ∧
    (msg.getD 0 0 = CODE_TEMPERATURE →
      decode_message msg =
        (none, some ((((msg.getD 1 0 <<< 8) ||| msg.getD 2 0 : Nat) : ℚ) * 0.0625 - 273.15))) ∧
    (msg.getD 0 0 ≠ CODE_CO2 → msg.getD 0 0 ≠ CODE_TEMPERATURE →
      decode_message msg = (none, none)) := by
  have hgood : ¬(msg.getD 5 0 ≠ 0 ∨ msg.getD 6 0 ≠ 0 ∨ msg.getD 7 0 ≠ 0 ∨
      msg.getD 4 0 ≠ CODE_END_MESSAGE ∨ ((msg.take 3).sum &&& 0xFF) ≠ msg.getD 3 0) := by
    rw [and_255_eq_mod]
    push_neg
    exact ⟨h5, h6, h7, h4, h3⟩
  refine ⟨fun hc => ?_, fun ht => ?_, fun hc ht => ?_⟩
  · simp only [decode_message, if_neg hgood, if_pos hc]
  · have hc : ¬(msg.getD 0 0 = CODE_CO2) := by
      rw [ht]; decide
    simp only [decode_message, if_neg hgood, if_neg hc, if_pos ht, convert_temperature]
  · simp only [decode_message, if_neg hgood, if_neg hc, if_neg ht]

/-- C3 amended witness: the theorem instantiated at the valid temperature
record with raw value 4689 = (0x12 << 8) | 0x51, which decodes to exactly
19.9125 Celsius. -/
theorem C3_decode_values_witness :
    decode_message [66, 18, 81, 165, 13, 0, 0, 0] = (none, some 19.9125) ∧
    ((18 <<< 8) ||| 81 : Nat) = 4689 := by
  constructor
  · have h := (C3_decode_values [66, 18, 81, 165, 13, 0, 0, 0] (by decide) (by decide)
      (by decide) (by decide) (by decide) (by decide)).2.1 (by decide)
    rw [h]
    rw [show (([66, 18, 81, 165, 13, 0, 0, 0] : List Nat).getD 1 0 <<< 8 |||
        ([66, 18, 81, 165, 13, 0, 0, 0] : List Nat).getD 2 0 : Nat) = 4689 from by decide]
    norm_num
  · decide

/-- C4 counterexample: from the initial state, one `hid_open` followed by one
`hid_close` leaves the handle closed with one OS close call issued; one
additional `hid_close` is not a no-op: it issues a second OS `close` call on
the already-closed handle.  This refutes the claimed "every additional
close() call beyond N is a no-op" and "never double-close". -/
theorem C4_counterexample :
    (hid_close false (hid_close false (hid_open true initHid))).osCloseCalls = 2 ∧
    hid_close false (hid_close false (hid_open true initHid)) ≠
      hid_close false (hid_open true initHid) ∧
    (hid_close false (hid_open true initHid)).osCloseCalls = 1 := by
  refine ⟨by decide, by decide, by decide⟩

theorem hid_open_iter (b : Bool) (N : Nat) (hN : 1 ≤ N) :
    (hid_open b)^[N] initHid = ⟨N, true, 1, 0, if b then 1 else 0⟩ := by
  induction N with
  | zero => omega
  | succ n ih =>
    cases Nat.eq_zero_or_pos n with
    | inl h =>
      subst h
      simp [hid_open, initHid]
    | inr h =>
      rw [Function.iterate_succ_apply', ih h]
      have hn : ¬(n = 0) := by omega
      simp [hid_open, hn]

theorem hid_close_iter (o c f : Nat) : ∀ N : Nat, 1 ≤ N →
    (hid_close false)^[N] ⟨N, true, o, c, f⟩ = ⟨0, false, o, c + 1, f⟩ := by
  intro N
  induction N with
  | zero => omega
  | succ n ih =>
    intro _
    rw [Function.iterate_succ_apply]
    cases Nat.eq_zero_or_pos n with
    | inl h =>
      subst h
      simp [hid_close]
    | inr h =>
      have hstep : hid_close false ⟨n + 1, true, o, c, f⟩ = ⟨n, true, o, c, f⟩ := by
        have hn : ¬(n = 0) := by omega
        simp [hid_close, hn]
      rw [hstep]
      exact ih h

/-- C4 amended: for every N ≥ 1, starting from the closed initial state, N
nested `hid_open` calls followed by N `hid_close` calls open and close the OS
handle exactly once (the close is issued at the N-th `hid_close` only), and
at all times the handle is open iff the open counter is positive; an
additional `hid_close` beyond N leaves the counter at 0 and the handle
closed, but it is not a no-op: it issues one more OS `close` call on the
already-closed handle. -/
theorem C4_refcount (N : Nat) (hN : 1 ≤ N) :
    ((hid_open true)^[N] initHid).status = N ∧
    ((hid_open true)^[N] initHid).handleOpen = true ∧
    ((hid_open true)^[N] initHid).osOpenCalls = 1 ∧
    ((hid_open true)^[N] initHid).osCloseCalls = 0 ∧
    (hid_close false)^[N] ((hid_open true)^[N] initHid) = ⟨0, false, 1, 1, 1⟩ ∧
    hid_close false ((hid_close false)^[N] ((hid_open true)^[N] initHid)) =
      ⟨0, false, 1, 2, 1⟩ ∧
    (∀ (s : HidState) (b f : Bool), (s.handleOpen = true ↔ 0 < s.status) →
      ((hid_open b s).handleOpen = true ↔ 0 < (hid_open b s).status) ∧
      ((hid_close f s).handleOpen = true ↔ 0 < (hid_close f s).status)) := by
  have hopen := hid_open_iter true N hN
  have hclose := hid_close_iter 1 0 1 N hN
  norm_num at hopen hclose
  rw [hopen]
  refine ⟨rfl, rfl, rfl, rfl, hclose, ?_, ?_⟩
  · rw [hclose]
    decide
  · intro s b f hinv
    constructor
    · unfold hid_open
      by_cases h : s.status = 0
      · simp [h]
      · simp only [if_neg h]
        constructor
        · intro _; omega
        · intro _; exact hinv.mpr (by omega)
    · unfold hid_close
      by_cases hf : f = true
      · subst hf
        simp only [if_pos rfl]
        simp
      · have hf' : f = false := by
          cases f
          · rfl
          · exact absurd rfl hf
        subst hf'
        simp only [Bool.false_eq_true, if_false]
        by_cases hs : 0 < s.status
        · rw [if_pos hs]
          by_cases hz : s.status - 1 = 0
          · simp [hz]
          · simp only [if_neg hz]
            simp only [hinv]
            omega
        · rw [if_neg hs]
          have : s.status = 0 := by omega
          simp [this]

/-- C4 witness: the amended theorem instantiated at N = 2. -/
theorem C4_refcount_witness :
    (1 ≤ 2) ∧
    ((hid_open true)^[2] initHid).status = 2 ∧
    (hid_close false)^[2] ((hid_open true)^[2] initHid) = ⟨0, false, 1, 1, 1⟩ ∧
    hid_close false ((hid_close false)^[2] ((hid_open true)^[2] initHid)) =
      ⟨0, false, 1, 2, 1⟩ := by
  have h := C4_refcount 2 (by norm_num)
  exact ⟨by norm_num, h.1, h.2.2.2.2.1, h.2.2.2.2.2.1⟩

theorem read_loop_spec (frames : Nat → List Nat) :
    ∀ fuel ii : Nat, bothSeen frames ii = false →
    ∃ R, ii ≤ R ∧ R ≤ ii + fuel ∧
      (∀ m, ii ≤ m → m < R → bothSeen frames m = false) ∧
      (bothSeen frames R = true ∨ R = ii + fuel) ∧
      read_loop frames ii fuel (lastSome (co2At frames) ii) (lastSome (tempAt frames) ii) =
        (R, lastSome (co2At frames) R, lastSome (tempAt frames) R) := by
  intro fuel
  induction fuel with
  | zero =>
    intro ii _
    exact ⟨ii, Nat.le_refl ii, by omega, fun m h1 h2 => by omega, Or.inr rfl, rfl⟩
  | succ fuel ih =>
    intro ii hii
    have hco2 : keepLast (decode_message (frames ii)).1 (lastSome (co2At frames) ii) =
        lastSome (co2At frames) (ii + 1) := by
      conv_rhs => rw [lastSome]
      rw [co2At]
    have htemp : keepLast (decode_message (frames ii)).2 (lastSome (tempAt frames) ii) =
        lastSome (tempAt frames) (ii + 1) := by
      conv_rhs => rw [lastSome]
      rw [tempAt]
    have hunfold : read_loop frames ii (fuel + 1)
          (lastSome (co2At frames) ii) (lastSome (tempAt frames) ii) =
        if bothSeen frames (ii + 1) then
          (ii + 1, lastSome (co2At frames) (ii + 1), lastSome (tempAt frames) (ii + 1))
        else read_loop frames (ii + 1) fuel
          (lastSome (co2At frames) (ii + 1)) (lastSome (tempAt frames) (ii + 1)) := by
      rw [read_loop]
      simp only [hco2, htemp]
      rfl
    by_cases hb : bothSeen frames (ii + 1) = true
    · refine ⟨ii + 1, by omega, by omega, fun m h1 h2 => ?_, Or.inl hb, ?_⟩
      · have : m = ii := by omega
        rw [this]
        exact hii
      · rw [hunfold, if_pos hb]
    · have hb' : bothSeen frames (ii + 1) = false := by
        cases h : bothSeen frames (ii + 1)
        · rfl
        · exact absurd h hb
      obtain ⟨R, hR1, hR2, hR3, hR4, hR5⟩ := ih (ii + 1) hb'
      refine ⟨R, by omega, by omega, fun m h1 h2 => ?_, ?_, ?_⟩
      · cases Nat.eq_or_lt_of_le h1 with
        | inl h =>
          rw [← h]
          exact hii
        | inr h => exact hR3 m (by omega) h2
      · cases hR4 with
        | inl h => exact Or.inl h
        | inr h => exact Or.inr (by omega)
      · rw [hunfold, if_neg hb]
        exact hR5

theorem lastSome_isSome_mono {α : Type} (g : Nat → Option α) :
    ∀ n m : Nat, m ≤ n → (lastSome g m).isSome = true → (lastSome g n).isSome = true := by
  intro n
  induction n with
  | zero =>
    intro m h hm
    have hm0 : m = 0 := by omega
    rw [hm0] at hm
    exact hm
  | succ n ih =>
    intro m h hm
    rcases Nat.eq_or_lt_of_le h with he | hlt
    · rw [he] at hm
      exact hm
    · have hn := ih m (by omega) hm
      unfold lastSome
      cases hg : g n
      · simp [keepLast, hg, hn]
      · simp [keepLast, hg]

theorem lastSome_none {α : Type} (g : Nat → Option α) (hg : ∀ i, g i = none) :
    ∀ n, lastSome g n = none := by
  intro n
  induction n with
  | zero => rfl
  | succ n ih =>
    unfold lastSome
    rw [hg n, ih]
    simp [keepLast]

/-- C5: for every frame source and every maxRequests ≥ 1, the Sample
Aggregator reads frames one at a time keeping the most recently seen CO2 and
temperature values, stops as soon as both kinds have been observed at least
once, and captures the timestamp once, after the loop: the result equals
(clock R, last CO2 within R, last temperature within R) where R, the number
of reads performed, is minimal with both kinds seen (or equals the budget
when both are never seen within it); in particular a source emitting a CO2
record then a temperature record in the first two frames yields exactly 2
reads with both fields populated. -/
theorem C5_aggregator (clock : Nat → Nat) (frames : Nat → List Nat) (maxR : Nat)
    (hmax : 1 ≤ maxR) :
    (∃ R, R ≤ maxR ∧ (∀ m, m < R → bothSeen frames m = false) ∧
      (bothSeen frames R = true ∨ R = maxR) ∧
      read_co2_temp clock frames maxR =
        (clock R, lastSome (co2At frames) R, lastSome (tempAt frames) R)) ∧
    (∀ (c : Nat) (t : ℚ), 2 ≤ maxR →
      decode_message (frames 0) = (some c, none) →
      decode_message (frames 1) = (none, some t) →
      read_co2_temp clock frames maxR = (clock 2, some c, some t)) := by
  have hzero : bothSeen frames 0 = false := rfl
  obtain ⟨R, hR1, hR2, hR3, hR4, hR5⟩ := read_loop_spec frames maxR 0 hzero
  have hrct : read_co2_temp clock frames maxR =
      (clock R, lastSome (co2At frames) R, lastSome (tempAt frames) R) := by
    unfold read_co2_temp
    rw [show (none : Option Nat) = lastSome (co2At frames) 0 from rfl,
      show (none : Option ℚ) = lastSome (tempAt frames) 0 from rfl, hR5]
  constructor
  · refine ⟨R, by omega, fun m hm => hR3 m (by omega) hm, ?_, hrct⟩
    rcases hR4 with h | h
    · exact Or.inl h
    · exact Or.inr (by omega)
  · intro c t hmax2 h0 h1
    have hc1 : lastSome (co2At frames) 1 = some c := by
      simp [lastSome, keepLast, co2At, h0]
    have hc2 : lastSome (co2At frames) 2 = some c := by
      simp [lastSome, keepLast, co2At, h0, h1]
    have ht1 : lastSome (tempAt frames) 1 = none := by
      simp [lastSome, keepLast, tempAt, h0]
    have ht2 : lastSome (tempAt frames) 2 = some t := by
      simp [lastSome, keepLast, tempAt, h1]
    have hb2 : bothSeen frames 2 = true := by
      simp [bothSeen, hc2, ht2]
    have hb1 : bothSeen frames 1 = false := by
      simp [bothSeen, ht1]
    have hR : R = 2 := by
      rcases Nat.lt_trichotomy R 2 with h | h | h
      · interval_cases R
        · cases hR4 with
          | inl hx => rw [hzero] at hx; exact absurd hx (by simp)
          | inr hx => omega
        · cases hR4 with
          | inl hx => rw [hb1] at hx; exact absurd hx (by simp)
          | inr hx => omega
      · exact h
      · exact absurd hb2 (by rw [hR3 2 (by omega) h]; simp)
    rw [hrct, hR, hc2, ht2]

/-- C6: a frame source that never emits a temperature reading makes the
aggregator perform exactly maxRequests reads and return normally with the
temperature absent and the CO2 field holding the most recent CO2 value
(populated whenever some frame carried one, e.g. frame 0); symmetrically for
a source that never emits CO2. -/
theorem C6_partial_sample (clock : Nat → Nat) (frames : Nat → List Nat) (maxR : Nat)
    (hmax : 1 ≤ maxR) :
    ((∀ i, tempAt frames i = none) →
      read_co2_temp clock frames maxR = (clock maxR, lastSome (co2At frames) maxR, none) ∧
      (∀ c, co2At frames 0 = some c → (lastSome (co2At frames) maxR).isSome = true)) ∧
    ((∀ i, co2At frames i = none) →
      read_co2_temp clock frames maxR = (clock maxR, none, lastSome (tempAt frames) maxR)) := by
  have hzero : bothSeen frames 0 = false := rfl
  obtain ⟨R, hR1, hR2, hR3, hR4, hR5⟩ := read_loop_spec frames maxR 0 hzero
  have hrct : read_co2_temp clock frames maxR =
      (clock R, lastSome (co2At frames) R, lastSome (tempAt frames) R) := by
    unfold read_co2_temp
    rw [show (none : Option Nat) = lastSome (co2At frames) 0 from rfl,
      show (none : Option ℚ) = lastSome (tempAt frames) 0 from rfl, hR5]
  constructor
  · intro hno
    have hnone : ∀ n, lastSome (tempAt frames) n = none := lastSome_none _ hno
    have hbf : ∀ n, bothSeen frames n = false := by
      intro n
      unfold bothSeen
      rw [hnone n]
      simp
    have hR : R = maxR := by
      cases hR4 with
      | inl h => rw [hbf R] at h; exact absurd h (by simp)
      | inr h => omega
    constructor
    · rw [hrct, hR, hnone maxR]
    · intro c hc
      have h1 : (lastSome (co2At frames) 1).isSome = true := by
        simp [lastSome, keepLast, hc]
      exact lastSome_isSome_mono _ maxR 1 hmax h1
  · intro hno
    have hnone : ∀ n, lastSome (co2At frames) n = none := lastSome_none _ hno
    have hbf : ∀ n, bothSeen frames n = false := by
      intro n
      unfold bothSeen
      rw [hnone n]
      simp
    have hR : R = maxR := by
      cases hR4 with
      | inl h => rw [hbf R] at h; exact absurd h (by simp)
      | inr h => omega
    rw [hrct, hR, hnone maxR]

/-- C5 witness: a source emitting the CO2 record [0x50, 3, 232, 59, 0x0D, 0,
0, 0] (1000 ppm) and then the temperature record [0x42, 0x12, 0x51, 0xA5,
0x0D, 0, 0, 0] (19.9125 Celsius) makes readSample with budget 50 return
after exactly 2 reads with both fields populated. -/
theorem decode_co2_frame :
    decode_message [80, 3, 232, 59, 13, 0, 0, 0] = (some 1000, none) := by
  have hgood : ¬(([80, 3, 232, 59, 13, 0, 0, 0] : List Nat).getD 5 0 ≠ 0 ∨
      ([80, 3, 232, 59, 13, 0, 0, 0] : List Nat).getD 6 0 ≠ 0 ∨
      ([80, 3, 232, 59, 13, 0, 0, 0] : List Nat).getD 7 0 ≠ 0 ∨
      ([80, 3, 232, 59, 13, 0, 0, 0] : List Nat).getD 4 0 ≠ CODE_END_MESSAGE ∨
      ((([80, 3, 232, 59, 13, 0, 0, 0] : List Nat).take 3).sum &&& 0xFF) ≠
        ([80, 3, 232, 59, 13, 0, 0, 0] : List Nat).getD 3 0) := by decide
  have hcc : ([80, 3, 232, 59, 13, 0, 0, 0] : List Nat).getD 0 0 = CODE_CO2 := by decide
  simp only [decode_message, if_neg hgood, if_pos hcc]
  rw [show (([80, 3, 232, 59, 13, 0, 0, 0] : List Nat).getD 1 0 <<< 8 |||
      ([80, 3, 232, 59, 13, 0, 0, 0] : List Nat).getD 2 0 : Nat) = 1000 from by decide]

theorem decode_temp_frame :
    decode_message [66, 18, 81, 165, 13, 0, 0, 0] = (none, some 19.9125) := by
  have hgood : ¬(([66, 18, 81, 165, 13, 0, 0, 0] : List Nat).getD 5 0 ≠ 0 ∨
      ([66, 18, 81, 165, 13, 0, 0, 0] : List Nat).getD 6 0 ≠ 0 ∨
      ([66, 18, 81, 165, 13, 0, 0, 0] : List Nat).getD 7 0 ≠ 0 ∨
      ([66, 18, 81, 165, 13, 0, 0, 0] : List Nat).getD 4 0 ≠ CODE_END_MESSAGE ∨
      ((([66, 18, 81, 165, 13, 0, 0, 0] : List Nat).take 3).sum &&& 0xFF) ≠
        ([66, 18, 81, 165, 13, 0, 0, 0] : List Nat).getD 3 0) := by decide
  have hne : ¬(([66, 18, 81, 165, 13, 0, 0, 0] : List Nat).getD 0 0 = CODE_CO2) := by decide
  have hte : ([66, 18, 81, 165, 13, 0, 0, 0] : List Nat).getD 0 0 = CODE_TEMPERATURE := by
    decide
  simp only [decode_message, if_neg hgood, if_neg hne, if_pos hte]
  rw [show (([66, 18, 81, 165, 13, 0, 0, 0] : List Nat).getD 1 0 <<< 8 |||
      ([66, 18, 81, 165, 13, 0, 0, 0] : List Nat).getD 2 0 : Nat) = 4689 from by decide]
  norm_num [convert_temperature]

/-- C5 witness: a source emitting the CO2 record [0x50, 3, 232, 59, 0x0D, 0,
0, 0] (1000 ppm) and then the temperature record [0x42, 0x12, 0x51, 0xA5,
0x0D, 0, 0, 0] (19.9125 Celsius) makes readSample with budget 50 return
after exactly 2 reads with both fields populated. -/
theorem C5_aggregator_witness :
    read_co2_temp (fun n => n)
      (fun i => if i = 0 then [80, 3, 232, 59, 13, 0, 0, 0] else [66, 18, 81, 165, 13, 0, 0, 0])
      50 = (2, some 1000, some 19.9125) := by
  exact (C5_aggregator (fun n => n)
    (fun i => if i = 0 then [80, 3, 232, 59, 13, 0, 0, 0] else [66, 18, 81, 165, 13, 0, 0, 0])
    50 (by norm_num)).2 1000 19.9125 (by norm_num) decode_co2_frame decode_temp_frame

/-- C6 witness: a source that only ever emits the CO2 record [0x50, 3, 232,
59, 0x0D, 0, 0, 0] makes readSample with budget 10 return after 10 reads
with co2 = 1000 populated and temperature absent. -/
theorem C6_partial_sample_witness :
    read_co2_temp (fun n => n) (fun _ => [80, 3, 232, 59, 13, 0, 0, 0]) 10 =
      (10, some 1000, none) := by
  have hno : ∀ i : Nat, tempAt (fun _ => [80, 3, 232, 59, 13, 0, 0, 0]) i = none := by
    intro i
    simp only [tempAt]
    decide
  have h := ((C6_partial_sample (fun n => n) (fun _ => [80, 3, 232, 59, 13, 0, 0, 0]) 10
    (by norm_num)).1 hno).1
  rw [h]
  decide

/-- C8 counterexample: an OS read returning only 3 bytes does not make
hid_read fail with the DeviceIOError of the claim: with decryption enabled it
fails with IndexError, and with bypass_decrypt it succeeds, returning the
short frame unchanged. -/
theorem C8_counterexample :
    hid_read false (.ok [1, 2, 3]) = .error .indexError ∧
    PyError.indexError ≠ PyError.osError ∧
    hid_read true (.ok [1, 2, 3]) = .ok [1, 2, 3] := by
  refine ⟨rfl, by decide, rfl⟩

/-- C8 amended: hid_read requests 8 bytes and passes whatever the OS read
returns through the Transcoder; an OS read failure propagates as
DeviceIOError (OSError); a read shorter than 8 bytes is not detected: with
decryption enabled it raises IndexError (not DeviceIOError) and with
bypass_decrypt it returns the short frame unchanged. -/
theorem C8_hid_read (msg : List Nat) (hshort : msg.length < 8) :
    (∀ b : Bool, hid_read b (.error ()) = .error .osError) ∧
    (∀ (b : Bool) (m : List Nat), hid_read b (.ok m) = decrypt b m) ∧
    hid_read false (.ok msg) = .error .indexError ∧
    hid_read true (.ok msg) = .ok msg := by
  refine ⟨fun b => rfl, fun b m => rfl, ?_, rfl⟩
  have hnot : ¬(8 ≤ msg.length) := by omega
  simp only [hid_read, decrypt, if_neg hnot, Bool.false_eq_true, if_false]

/-- C8 witness: the amended theorem instantiated at the 2-byte read. -/
theorem C8_hid_read_witness :
    ([1, 2] : List Nat).length < 8 ∧
    hid_read false (.ok [1, 2]) = .error .indexError ∧
    hid_read true (.ok [1, 2]) = .ok [1, 2] :=
  ⟨by decide, (C8_hid_read [1, 2] (by decide)).2.2⟩

theorem read_co2_data_fail {M V : Type} (initR : Except Unit M) (readR : M → Except Unit V)
    (mon : Option M) (h : (read_co2_data initR readR mon).1 = none) :
    read_co2_data initR readR mon = (none, none) := by
  cases mon with
  | none =>
    cases initR with
    | error e => simp [read_co2_data]
    | ok m =>
      cases hr : readR m with
      | error e => simp [read_co2_data, hr]
      | ok v => simp [read_co2_data, hr] at h
  | some m =>
    cases hr : readR m with
    | error e => simp [read_co2_data, hr]
    | ok v => simp [read_co2_data, hr] at h

/-- C7: a device I/O failure (OSError) during monitor construction or frame
read does not terminate the monitoring loop: the iteration completes with
the monitor object dropped, the failure recorded in the log and nothing
written to the sink; the loop always proceeds to the next iteration, and a
subsequent iteration whose construction and read succeed resumes logging and
writing samples. -/
theorem C7_loop_resilient {M V : Type} (initR : Except Unit M) (readR : M → Except Unit V)
    (s : LoopState M V) (hfail : (read_co2_data initR readR s.mon).1 = none) :
    monitoring_step initR readR s = ⟨none, s.log ++ [.notConnected], s.sink⟩ ∧
    (∀ (env : Nat → Except Unit M × (M → Except Unit V)) (s0 : LoopState M V) (n : Nat),
      monitoring_run env s0 (n + 1) =
        monitoring_step (env n).1 (env n).2 (monitoring_run env s0 n)) ∧
    (∀ (m : M) (v : V) (initR2 : Except Unit M) (readR2 : M → Except Unit V),
      initR2 = .ok m → readR2 m = .ok v →
      monitoring_step initR2 readR2 (monitoring_step initR readR s) =
        ⟨some m, s.log ++ [.notConnected, .reading v], s.sink ++ [v]⟩) := by
  have hdrop := read_co2_data_fail initR readR s.mon hfail
  have hstep : monitoring_step initR readR s = ⟨none, s.log ++ [.notConnected], s.sink⟩ := by
    unfold monitoring_step
    rw [hdrop]
  refine ⟨hstep, fun env s0 n => rfl, fun m v initR2 readR2 hi hr => ?_⟩
  rw [hstep]
  unfold monitoring_step read_co2_data
  simp only [hi, hr]
  simp [List.append_assoc]

/-- C7 witness: with the monitor present and a failing read, one iteration
drops the monitor and records the failure; a following successful iteration
recovers. -/
theorem C7_loop_resilient_witness :
    monitoring_step (Except.error () : Except Unit Nat)
        (fun _ => (Except.error () : Except Unit Nat)) ⟨some 0, [], []⟩ =
      ⟨none, [LogEntry.notConnected], []⟩ ∧
    monitoring_step (Except.ok 1 : Except Unit Nat)
        (fun _ => (Except.ok 7 : Except Unit Nat))
        (monitoring_step (Except.error () : Except Unit Nat)
          (fun _ => (Except.error () : Except Unit Nat)) ⟨some 0, [], []⟩) =
      ⟨some 1, [LogEntry.notConnected, LogEntry.reading 7], [7]⟩ := by
  have h := C7_loop_resilient (Except.error () : Except Unit Nat)
    (fun _ => (Except.error () : Except Unit Nat)) ⟨some 0, [], []⟩ rfl
  exact ⟨h.1, h.2.2 1 7 (Except.ok 1) (fun _ => Except.ok 7) rfl rfl⟩

/-- C9 counterexample: calling start_monitoring with interval 7 while the
loop is already running with interval 5 spawns no second thread but changes
the stored polling interval, so the monitor state is not left unchanged as
the claim requires. -/
theorem C9_counterexample :
    start_monitoring 7 ⟨true, 5, 1⟩ = ⟨true, 7, 1⟩ ∧
    (⟨true, 7, 1⟩ : MonState) ≠ ⟨true, 5, 1⟩ := by
  constructor
  · rfl
  · intro h
    have := congrArg MonState.interval h
    norm_num at this

/-- C9 amended: calling start_monitoring while the loop is already running
spawns no second thread and leaves the running flag set, but it does update
the configured polling interval to the new value before returning. -/
theorem C9_start_idempotent (s : MonState) (i : ℚ) (hrun : s.keep_monitoring = true) :
    start_monitoring i s = { s with interval := i } ∧
    (start_monitoring i s).threads = s.threads ∧
    (start_monitoring i s).keep_monitoring = true := by
  have h : start_monitoring i s = { s with interval := i } := by
    unfold start_monitoring
    simp only [hrun, if_pos]
  exact ⟨h, by rw [h], by rw [h]; exact hrun⟩

/-- C9 witness: the amended theorem instantiated at a running monitor with
interval 5 and a second start with interval 7. -/
theorem C9_start_idempotent_witness :
    start_monitoring 7 ⟨true, 5, 1⟩ = ⟨true, 7, 1⟩ ∧
    (start_monitoring 7 ⟨true, 5, 1⟩).threads = 1 :=
  ⟨((C9_start_idempotent ⟨true, 5, 1⟩ 7 rfl).1).trans rfl,
   (C9_start_idempotent ⟨true, 5, 1⟩ 7 rfl).2.1⟩

end CO2Meter

